import Mathlib

/-!
Verification of the structured-logging subsystem of mariadb-mcp
(`src/logging_config.py`, consumed by `src/config.py`).

The embedding models:
  * `CustomJsonFormatter.add_fields` (lines 23-41) over an association-list
    representation of the JSON log record, including the behaviour of the
    inherited `pythonjsonlogger.JsonFormatter.add_fields` (required fields
    parsed from the format string, then the caller-supplied payload merged
    dict-update style);
  * the process-wide logger registry of Python's `logging` module (a map
    from dotted names to logger state: level, propagate flag, handler list),
    together with `setup_logger` (lines 44-108), `get_logger` (111-123) and
    `setup_third_party_logging` (126-153);
  * `getattr(logging, s.upper(), default)` over the all-uppercase attributes
    of the `logging` module, composed with `Logger.setLevel`;
  * the handler-collection walk of `Logger.callHandlers` (a record emitted on
    a logger is delivered to the handlers of the logger and of its existing
    ancestors, stopping at the first logger whose `propagate` flag is false;
    the process-global root logger terminates the chain).

Machine integers do not overflow in any modelled path, so `Int` is used
directly. Python string `.upper()` is modelled on its ASCII fragment, which
covers every string the code compares against.
-/

/-- A JSON-like value stored in a log record. -/
inductive JVal where
  | str (s : String)
  | int (n : Int)
  | null
deriving Repr, DecidableEq

/-- Python truthiness of an optional record entry (`dict.get` returns `None`
when the key is absent; `None`, `""` and `0` are falsy). -/
def truthy : Option JVal → Bool
  | none => false
  | some JVal.null => false
  | some (JVal.str s) => !(s = "")
  | some (JVal.int n) => !(n = 0)

/-- The JSON log record under construction: an insertion-ordered string map,
as a Python `dict` is. -/
abbrev JRecord := List (String × JVal)

/-- Lookup in the record (first binding; keys are unique under `alSet`). -/
def alGet (m : JRecord) (k : String) : Option JVal :=
  match m with
  | [] => none
  | (k2, v) :: rest => if k2 = k then some v else alGet rest k

/-- `log_record[k] = v`: overwrite in place if the key exists, else append,
exactly as a Python dict assignment behaves. -/
def alSet (m : JRecord) (k : String) (v : JVal) : JRecord :=
  match m with
  | [] => [(k, v)]
  | (k2, v2) :: rest => if k2 = k then (k2, v) :: rest else (k2, v2) :: alSet rest k v

theorem alGet_alSet_self (m : JRecord) (k : String) (v : JVal) :
    alGet (alSet m k v) k = some v := by
  induction m with
  | nil => simp [alSet, alGet]
  | cons p rest ih =>
    obtain ⟨k2, v2⟩ := p
    by_cases h : k2 = k
    · simp [alSet, alGet, h]
    · simp [alSet, alGet, h, ih]

theorem alGet_alSet_ne (m : JRecord) (k k' : String) (v : JVal) (h : k' ≠ k) :
    alGet (alSet m k v) k' = alGet m k' := by
  induction m with
  | nil =>
    simp only [alSet, alGet]
    rw [if_neg (fun hh : k = k' => h hh.symm)]
  | cons p rest ih =>
    obtain ⟨k2, v2⟩ := p
    by_cases hk : k2 = k
    · subst hk
      simp only [alSet, if_pos rfl, alGet]
      rw [if_neg (fun hh : k2 = k' => h hh.symm), if_neg (fun hh : k2 = k' => h hh.symm)]
    · simp only [alSet, if_neg hk, alGet]
      by_cases h2 : k2 = k'
      · rw [if_pos h2, if_pos h2]
      · rw [if_neg h2, if_neg h2, ih]

/-- The raw `logging.LogRecord` attributes that the formatter consumes.
`message` is set by `JsonFormatter.format` before `add_fields` runs (it is
`None` when the logged message itself is a dict). `asctime` stands for the
result of `self.formatTime(record, self.datefmt)`. `process` and `thread`
are `None` when the runtime does not supply them. -/
structure PyRecord where
  name : String
  levelname : String
  module : String
  funcName : String
  lineno : Int
  message : JVal
  process : Option Int
  thread : Option Int
  asctime : String
deriving Repr, DecidableEq

/-- The record as initialised by `pythonjsonlogger.JsonFormatter.add_fields`
from the required fields of the format string
`'%(timestamp)s %(level)s %(name)s %(module)s %(funcName)s:%(lineno)d %(message)s'`:
each required field is looked up in `record.__dict__` (absent attributes such
as `timestamp` and `level` yield `None`). -/
def requiredFieldInit (r : PyRecord) : JRecord :=
  [("timestamp", JVal.null), ("level", JVal.null), ("name", JVal.str r.name),
   ("module", JVal.str r.module), ("funcName", JVal.str r.funcName),
   ("lineno", JVal.int r.lineno), ("message", r.message)]

/-- `super().add_fields(log_record, record, message_dict)`: required fields
first, then the caller-supplied key-value payload (`message_dict` and the
non-reserved `extra=` attributes) merged in call order, each entry by
dict update. -/
def superAddFields (r : PyRecord) (extras : JRecord) : JRecord :=
  extras.foldl (fun m kv => alSet m kv.1 kv.2) (requiredFieldInit r)

/-- Lines 26-28: `if not log_record.get('timestamp'): log_record['timestamp']
= self.formatTime(record, self.datefmt)` — the timestamp is only filled in
when the merged record holds no truthy value for it. -/
def addFieldsTs (r : PyRecord) (extras : JRecord) : JRecord :=
  if truthy (alGet (superAddFields r extras) "timestamp") then superAddFields r extras
  else alSet (superAddFields r extras) "timestamp" (JVal.str r.asctime)

/-- Lines 30-35: the calling-context fields are assigned unconditionally,
after the caller payload was merged. -/
def addFieldsCtx (r : PyRecord) (extras : JRecord) : JRecord :=
  alSet (alSet (alSet (alSet (alSet (addFieldsTs r extras)
    "level" (JVal.str r.levelname)) "logger" (JVal.str r.name))
    "module" (JVal.str r.module)) "function" (JVal.str r.funcName))
    "line" (JVal.int r.lineno)

/-- Lines 38-39: `if record.process: log_record['process'] = record.process`
(Python truthiness: `None` and `0` are skipped). -/
def addFieldsProc (r : PyRecord) (extras : JRecord) : JRecord :=
  match r.process with
  | some p =>
    if p = 0 then addFieldsCtx r extras
    else alSet (addFieldsCtx r extras) "process" (JVal.int p)
  | none => addFieldsCtx r extras

/-- `CustomJsonFormatter.add_fields` (logging_config.py lines 23-41): the
inherited merge, the timestamp fill-in, the context fields, then `process`
and `thread` when the record carries truthy values for them (lines 40-41). -/
def addFields (r : PyRecord) (extras : JRecord) : JRecord :=
  match r.thread with
  | some t =>
    if t = 0 then addFieldsProc r extras
    else alSet (addFieldsProc r extras) "thread" (JVal.int t)
  | none => addFieldsProc r extras

theorem foldl_alSet_get_of_absent (extras : JRecord) (m : JRecord) (k : String)
    (h : alGet extras k = none) :
    alGet (extras.foldl (fun acc kv => alSet acc kv.1 kv.2) m) k = alGet m k := by
  induction extras generalizing m with
  | nil => rfl
  | cons p rest ih =>
    obtain ⟨k2, v2⟩ := p
    simp only [alGet] at h
    by_cases hk : k2 = k
    · simp [hk] at h
    · simp only [List.foldl_cons]
      rw [ih (alSet m k2 v2) (by simpa [hk] using h),
          alGet_alSet_ne m k2 k v2 (fun hh => hk hh.symm)]

/-! ### The logger registry of Python's `logging` module -/

/-- A logger name, as the list of its dot-separated components.
Python keys its registry by the full dotted string; splitting on dots is a
bijective change of representation that makes the ancestor hierarchy
structural. -/
abbrev LName := List String

/-- `str.split('.')` on the character list. -/
def splitDotsAux : List Char → List Char → List (List Char)
  | [], acc => [acc.reverse]
  | c :: cs, acc =>
    if c = '.' then acc.reverse :: splitDotsAux cs [] else splitDotsAux cs (c :: acc)

/-- A dotted logger-name string, as its component list. -/
def splitDots (s : String) : LName :=
  (splitDotsAux s.data []).map (fun l => String.mk l)

/-- A handler attached to a logger: `logging.StreamHandler()` for the
console, or `logging.handlers.RotatingFileHandler(path, maxBytes, backupCount)`
for the rotating file sink. Both carry the shared `CustomJsonFormatter`. -/
inductive Handler where
  | stream : Handler
  | rotatingFile (path : String) (maxBytes : Int) (backupCount : Int) : Handler
deriving Repr, DecidableEq

/-- Mutable state of one `logging.Logger`: its level, its `propagate` flag
and its attached handlers. -/
structure PyLogger where
  level : Int
  propagate : Bool
  handlers : List Handler
deriving Repr, DecidableEq

/-- The process-wide logger registry (`logging.Logger.manager.loggerDict`),
restricted to actual loggers; placeholders are simply absent entries. -/
abbrev Registry := List (LName × PyLogger)

def regFind (st : Registry) (n : LName) : Option PyLogger :=
  match st with
  | [] => none
  | (m, l) :: rest => if m = n then some l else regFind rest n

/-- State of a freshly constructed `logging.Logger`: level `NOTSET` (0),
`propagate = True`, no handlers. -/
def newLogger : PyLogger := { level := 0, propagate := true, handlers := [] }

/-- `logging.getLogger(name)`: return the registered logger, creating it on
first access. -/
def ensureLogger (st : Registry) (n : LName) : Registry :=
  match regFind st n with
  | some _ => st
  | none => st ++ [(n, newLogger)]

/-- Mutation of the logger registered under `n`. -/
def regSet (st : Registry) (n : LName) (f : PyLogger → PyLogger) : Registry :=
  match st with
  | [] => []
  | (m, l) :: rest => (if m = n then (m, f l) else (m, l)) :: regSet rest n f

/-- `LOGGER_NAME = "mariadb_mcp"` (logging_config.py line 15). -/
def LOGGER_NAME : String := "mariadb_mcp"

/-- The registry key of the project's dedicated root logger. -/
def rootName : LName := splitDots LOGGER_NAME

/-- Outcome of `Logger.setLevel` on the value `getattr` produced:
either a numeric level, or an exception (`_checkLevel` raises `ValueError`
for a string that is not a level name and `TypeError` for anything else). -/
inductive LevelResolution where
  | val (v : Int)
  | raises
deriving Repr, DecidableEq

/-- `getattr(logging, u, default)` restricted to strings `u` reachable as
`s.upper()`: the all-uppercase attributes of the `logging` module. The level
constants resolve to their numeric values; `BASIC_FORMAT` (a format string)
and `_STYLES` (a dict) are attributes whose value `setLevel` rejects. -/
def getattrUpper (u : String) : Option LevelResolution :=
  if u = "CRITICAL" then some (LevelResolution.val 50)
  else if u = "FATAL" then some (LevelResolution.val 50)
  else if u = "ERROR" then some (LevelResolution.val 40)
  else if u = "WARNING" then some (LevelResolution.val 30)
  else if u = "WARN" then some (LevelResolution.val 30)
  else if u = "INFO" then some (LevelResolution.val 20)
  else if u = "DEBUG" then some (LevelResolution.val 10)
  else if u = "NOTSET" then some (LevelResolution.val 0)
  else if u = "BASIC_FORMAT" then some LevelResolution.raises
  else if u = "_STYLES" then some LevelResolution.raises
  else none

/-- Python `str.upper()` (ASCII fragment). -/
def pyUpper (s : String) : String := String.mk (s.data.map Char.toUpper)

/-- `getattr(logging, s.upper(), dflt)` followed by `setLevel`, where `dflt`
is the numeric default level the call site supplies (`logging.INFO` in
`setup_logger`, `logging.WARNING` in `setup_third_party_logging`). -/
def resolveLevel (s : String) (dflt : Int) : LevelResolution :=
  match getattrUpper (pyUpper s) with
  | some r => r
  | none => LevelResolution.val dflt

/-- The keyword arguments of `setup_logger` (lines 44-51), with the
declared Python default values. -/
structure Config where
  log_level : String := "INFO"
  log_file_path : String := "logs/mcp_server.log"
  log_max_bytes : Int := 10 * 1024 * 1024
  log_backup_count : Int := 5
  enable_console : Bool := true
  enable_file : Bool := true
deriving Repr

/-- Outcome of the filesystem operations `setup_logger` performs when the
file sink is enabled: `Path(log_file_path).parent.mkdir(parents=True,
exist_ok=True)` and the file open inside `RotatingFileHandler.__init__`. -/
structure FsOutcome where
  mkdirOk : Bool
  openOk : Bool
deriving Repr, DecidableEq

/-- An exception escaping `setup_logger` / `setup_third_party_logging`:
`levelError` for `setLevel`'s ValueError/TypeError, `mkdirError` and
`openError` for the OSErrors of directory creation and file open (the
errors the spec's taxonomy calls `SinkInitError`). -/
inductive PyError where
  | levelError
  | mkdirError
  | openError
deriving Repr, DecidableEq

/-- `setup_logger` (logging_config.py lines 44-108), statement by statement:
get the dedicated logger, set its level, disable propagation, remove every
existing handler, then attach the console and/or rotating-file handlers per
the flags. The returned pair is (registry after the call, exception if one
escaped); an exception leaves the mutations already performed in place. -/
def setupLogger (cfg : Config) (fs : FsOutcome) (st : Registry) : Registry × Option PyError :=
  let st := ensureLogger st rootName
  match resolveLevel cfg.log_level 20 with
  | LevelResolution.raises => (st, some PyError.levelError)
  | LevelResolution.val v =>
    let st := regSet st rootName (fun l => { l with level := v })
    let st := regSet st rootName (fun l => { l with propagate := false })
    let st := regSet st rootName (fun l => { l with handlers := [] })
    let st := if cfg.enable_console then
                regSet st rootName (fun l => { l with handlers := l.handlers ++ [Handler.stream] })
              else st
    if cfg.enable_file then
      if fs.mkdirOk then
        if fs.openOk then
          (regSet st rootName (fun l =>
            { l with handlers := l.handlers ++
                [Handler.rotatingFile cfg.log_file_path cfg.log_max_bytes cfg.log_backup_count] }),
           none)
        else (st, some PyError.openError)
      else (st, some PyError.mkdirError)
    else (st, none)

/-- `get_logger(name)` (lines 111-123): the handle (registry key) returned
to the caller, and the registry after the call. `if name:` is Python
truthiness, so both `None` and `""` yield the dedicated root logger. -/
def getLogger (name : Option String) (st : Registry) : LName × Registry :=
  match name with
  | some n =>
    if n = "" then (rootName, ensureLogger st rootName)
    else
      let child := splitDots (LOGGER_NAME ++ "." ++ n)
      (child, ensureLogger st child)
  | none => (rootName, ensureLogger st rootName)

/-- The fixed `third_party_loggers` list (lines 136-145). -/
def THIRD_PARTY_LOGGERS : List String :=
  ["fastmcp", "uvicorn", "uvicorn.access", "uvicorn.error",
   "starlette", "asyncmy", "httpx", "httpcore"]

/-- The `for logger_name in third_party_loggers:` loop (lines 149-153):
get the logger, set its level (which raises if `getattr` produced a
non-level value), then set `propagate = True`. -/
def suppressLoop (lv : LevelResolution) (names : List String) (st : Registry) :
    Registry × Option PyError :=
  match names with
  | [] => (st, none)
  | n :: rest =>
    let st := ensureLogger st (splitDots n)
    match lv with
    | LevelResolution.raises => (st, some PyError.levelError)
    | LevelResolution.val v =>
      let st := regSet st (splitDots n) (fun l => { l with level := v })
      let st := regSet st (splitDots n) (fun l => { l with propagate := true })
      suppressLoop lv rest st

/-- `setup_third_party_logging(level)` (lines 126-153):
`log_level = getattr(logging, level.upper(), logging.WARNING)` computed once,
then the loop over the fixed name list. -/
def setupThirdPartyLogging (level : String) (st : Registry) : Registry × Option PyError :=
  suppressLoop (resolveLevel level 30) THIRD_PARTY_LOGGERS st

/-- One operation of the subsystem's public surface. -/
inductive Op where
  | setup (cfg : Config) (fs : FsOutcome)
  | getL (name : Option String)
  | suppress (level : String)

def applyOp : Op → Registry → Registry
  | Op.setup cfg fs, st => (setupLogger cfg fs st).1
  | Op.getL n, st => (getLogger n st).2
  | Op.suppress lv, st => (setupThirdPartyLogging lv st).1

def runOps : List Op → Registry → Registry
  | [], st => st
  | op :: rest, st => runOps rest (applyOp op st)

/-! ### The emission walk of `Logger.callHandlers` -/

/-- The proper dotted ancestors of a name, nearest first:
`a.b.c ↦ [a.b, a]`. -/
def ancestorsOf : LName → List LName
  | [] => []
  | [_] => []
  | a :: b :: rest => (ancestorsOf (b :: rest)).map (fun m => a :: m) ++ [[a]]

/-- The logger itself followed by its proper ancestors, nearest first. -/
def chainNames (n : LName) : List LName := n :: ancestorsOf n

/-- The loggers `record.handlers` walks for an emission on `n`: the existing
loggers along the ancestor chain (placeholders are skipped, exactly as
`logging._fixupParents` links parents through existing loggers only). -/
def chainLoggers (st : Registry) (n : LName) : List PyLogger :=
  (chainNames n).filterMap (fun m => regFind st m)

/-- `Logger.callHandlers`: collect the handlers of each logger along the
chain; stop after the first logger whose `propagate` flag is false; if no
logger stops the walk, the process-global root logger (`ambient`, the
channel this subsystem does not own) receives the record last. -/
def walkChain (ambient : PyLogger) : List PyLogger → List Handler
  | [] => ambient.handlers
  | l :: rest => l.handlers ++ (if l.propagate then walkChain ambient rest else [])

/-- All handlers a record emitted on logger `n` is delivered to. -/
def collectHandlers (st : Registry) (ambient : PyLogger) (n : LName) : List Handler :=
  walkChain ambient (chainLoggers st n)

/-- The emission walk from `n` reaches the ambient root logger iff every
logger in the chain propagates. -/
def reachesAmbient (st : Registry) (n : LName) : Bool :=
  (chainLoggers st n).all (fun l => l.propagate)

/-- `n` is the dedicated logger or one of its descendants. -/
def isInitSeg : LName → LName → Bool
  | [], _ => true
  | _ :: _, [] => false
  | a :: as, b :: bs => a = b && isInitSeg as bs

/-- `RotatingFileHandler.shouldRollover` on a handler whose `maxBytes` field
was set at construction: rotation triggers only when `maxBytes > 0` and the
current size plus the pending record reaches it. -/
def shouldRollover (maxBytes size msgLen : Int) : Bool :=
  maxBytes > 0 && size + msgLen ≥ maxBytes

/-- The handler list `setup_logger` leaves on the dedicated logger when it
completes: console first (when enabled), then the rotating file handler
carrying the configured path, maxBytes and backupCount verbatim. -/
def expectedHandlers (cfg : Config) : List Handler :=
  (if cfg.enable_console then [Handler.stream] else []) ++
  (if cfg.enable_file then
     [Handler.rotatingFile cfg.log_file_path cfg.log_max_bytes cfg.log_backup_count]
   else [])

/-- The dedicated root logger exists and has propagation disabled. -/
def rootIsolated (st : Registry) : Bool :=
  match regFind st rootName with
  | some l => !l.propagate
  | none => false

/-- Every strict descendant of the dedicated logger owns no handlers and
propagates (so it delegates emission upward). -/
def subtreeClean (st : Registry) : Bool :=
  st.all (fun p =>
    !(isInitSeg rootName p.1 && !(p.1 = rootName)) || (p.2.handlers.isEmpty && p.2.propagate))

/-- Registry invariant maintained by the subsystem's operations. -/
def regInv (st : Registry) : Bool := rootIsolated st && subtreeClean st

/-! ### Registry lemmas -/

theorem regFind_append_of_found (st ys : Registry) (n : LName) (l : PyLogger)
    (h : regFind st n = some l) : regFind (st ++ ys) n = some l := by
  induction st with
  | nil => simp [regFind] at h
  | cons p rest ih =>
    obtain ⟨m, l2⟩ := p
    by_cases hm : m = n
    · simpa [regFind, hm] using h
    · simp only [regFind, if_neg hm] at h
      simpa [regFind, hm] using ih h

theorem ensure_pres (st : Registry) (m n : LName) (l : PyLogger)
    (h : regFind st n = some l) : regFind (ensureLogger st m) n = some l := by
  unfold ensureLogger
  cases hf : regFind st m with
  | some _ => exact h
  | none => exact regFind_append_of_found st _ n l h

theorem ensure_self (st : Registry) (n : LName) :
    ∃ l, regFind (ensureLogger st n) n = some l := by
  unfold ensureLogger
  cases hf : regFind st n with
  | some l => exact ⟨l, hf⟩
  | none =>
    refine ⟨newLogger, ?_⟩
    induction st with
    | nil => simp [regFind]
    | cons p rest ih =>
      obtain ⟨m, l2⟩ := p
      by_cases hm : m = n
      · simp [regFind, hm] at hf
      · simp only [regFind, if_neg hm] at hf
        simpa [regFind, hm] using ih hf

theorem ensure_new (st : Registry) (n : LName) (h : regFind st n = none) :
    regFind (ensureLogger st n) n = some newLogger := by
  unfold ensureLogger
  rw [h]
  induction st with
  | nil => simp [regFind]
  | cons p rest ih =>
    obtain ⟨m, l2⟩ := p
    by_cases hm : m = n
    · simp [regFind, hm] at h
    · simp only [regFind, if_neg hm] at h
      simpa [regFind, hm] using ih h

theorem ensure_ne (st : Registry) (m n : LName) (h : n ≠ m) :
    regFind (ensureLogger st m) n = regFind st n := by
  unfold ensureLogger
  cases hf : regFind st m with
  | some _ => rfl
  | none =>
    induction st with
    | nil =>
      simp only [List.nil_append, regFind]
      rw [if_neg (fun hh : m = n => h hh.symm)]
    | cons p rest ih =>
      obtain ⟨m2, l2⟩ := p
      by_cases hm : m2 = m
      · simp [regFind, hm] at hf
      · simp only [regFind, if_neg hm] at hf
        by_cases h2 : m2 = n
        · simp [regFind, h2]
        · simpa [regFind, h2] using ih hf

theorem regFind_regSet_self (st : Registry) (n : LName) (f : PyLogger → PyLogger) :
    regFind (regSet st n f) n = (regFind st n).map f := by
  induction st with
  | nil => rfl
  | cons p rest ih =>
    obtain ⟨m, l⟩ := p
    by_cases hm : m = n
    · rw [show regSet ((m, l) :: rest) n f = (m, f l) :: regSet rest n f from by
            rw [regSet, if_pos hm]]
      rw [regFind, regFind, if_pos hm, if_pos hm]
      rfl
    · rw [show regSet ((m, l) :: rest) n f = (m, l) :: regSet rest n f from by
            rw [regSet, if_neg hm]]
      rw [regFind, regFind, if_neg hm, if_neg hm, ih]

theorem regFind_regSet_ne (st : Registry) (m n : LName) (f : PyLogger → PyLogger)
    (h : n ≠ m) : regFind (regSet st m f) n = regFind st n := by
  induction st with
  | nil => rfl
  | cons p rest ih =>
    obtain ⟨m2, l⟩ := p
    by_cases hm : m2 = m
    · rw [show regSet ((m2, l) :: rest) m f = (m2, f l) :: regSet rest m f from by
            rw [regSet, if_pos hm]]
      rw [regFind, regFind,
          if_neg (fun hh : m2 = n => h (hm ▸ hh.symm)),
          if_neg (fun hh : m2 = n => h (hm ▸ hh.symm)), ih]
    · rw [show regSet ((m2, l) :: rest) m f = (m2, l) :: regSet rest m f from by
            rw [regSet, if_neg hm]]
      by_cases h2 : m2 = n
      · rw [regFind, regFind, if_pos h2, if_pos h2]
      · rw [regFind, regFind, if_neg h2, if_neg h2, ih]

/-! ### `setup_logger` characterisation -/

theorem setup_success_root (cfg : Config) (fs : FsOutcome) (st : Registry) (v : Int)
    (hv : resolveLevel cfg.log_level 20 = LevelResolution.val v)
    (hfs : cfg.enable_file = true → fs.mkdirOk = true ∧ fs.openOk = true) :
    (setupLogger cfg fs st).2 = none ∧
    regFind (setupLogger cfg fs st).1 rootName =
      some { level := v, propagate := false, handlers := expectedHandlers cfg } := by
  obtain ⟨l0, hl0⟩ := ensure_self st rootName
  unfold setupLogger
  rw [hv]
  cases hc : cfg.enable_console with
  | true =>
    cases hf : cfg.enable_file with
    | true =>
      obtain ⟨hmk, hop⟩ := hfs hf
      simp [hmk, hop, regFind_regSet_self, hl0, expectedHandlers, hc, hf]
    | false =>
      simp [regFind_regSet_self, hl0, expectedHandlers, hc, hf]
  | false =>
    cases hf : cfg.enable_file with
    | true =>
      obtain ⟨hmk, hop⟩ := hfs hf
      simp [hmk, hop, regFind_regSet_self, hl0, expectedHandlers, hc, hf]
    | false =>
      simp [regFind_regSet_self, hl0, expectedHandlers, hc, hf]

/-! ### Name-structure lemmas -/

theorem rootName_eq : rootName = ["mariadb_mcp"] := rfl

theorem splitDotsAux_ne_nil (l acc : List Char) : splitDotsAux l acc ≠ [] := by
  induction l generalizing acc with
  | nil => simp [splitDotsAux]
  | cons c cs ih =>
    by_cases hc : c = '.'
    · simp [splitDotsAux, hc]
    · simp [splitDotsAux, hc, ih]

theorem splitDots_ne_nil (s : String) : splitDots s ≠ [] := by
  unfold splitDots
  intro h
  exact splitDotsAux_ne_nil s.data [] (List.map_eq_nil_iff.mp h)

theorem splitDots_child (n : String) :
    splitDots (LOGGER_NAME ++ "." ++ n) = "mariadb_mcp" :: splitDots n := by
  have hs : LOGGER_NAME ++ "." ++ n = "mariadb_mcp." ++ n := rfl
  rw [hs]
  have hd : ("mariadb_mcp." ++ n).data =
      'm' :: 'a' :: 'r' :: 'i' :: 'a' :: 'd' :: 'b' :: '_' :: 'm' :: 'c' :: 'p' :: '.' :: n.data := by
    rw [String.data_append]
    rfl
  unfold splitDots
  rw [hd]
  simp [splitDotsAux]

theorem splitDots_child_ne_root (n : String) :
    splitDots (LOGGER_NAME ++ "." ++ n) ≠ rootName := by
  rw [splitDots_child, rootName_eq]
  intro h
  have := congrArg List.tail h
  simp at this
  exact splitDots_ne_nil n this

theorem isInitSeg_root_child (n : String) :
    isInitSeg rootName (splitDots (LOGGER_NAME ++ "." ++ n)) = true := by
  rw [splitDots_child, rootName_eq]
  simp [isInitSeg]

/-! ### Walk lemmas -/

theorem ancestorsOf_mem_ne_nil (n : LName) (m : LName) (h : m ∈ ancestorsOf n) : m ≠ [] := by
  induction n using ancestorsOf.induct with
  | case1 => simp [ancestorsOf] at h
  | case2 => simp [ancestorsOf] at h
  | case3 a b rest ih =>
    simp only [ancestorsOf, List.mem_append, List.mem_map, List.mem_singleton] at h
    rcases h with ⟨m2, _, rfl⟩ | rfl <;> simp

theorem root_mem_chainNames (n : LName) (h : isInitSeg rootName n = true) :
    rootName ∈ chainNames n := by
  rw [rootName_eq] at h ⊢
  match n with
  | [] => simp [isInitSeg] at h
  | a :: rest =>
    simp only [isInitSeg, Bool.and_eq_true, decide_eq_true_eq] at h
    obtain ⟨rfl, -⟩ := h
    match rest with
    | [] => simp [chainNames]
    | b :: rest2 =>
      simp [chainNames, ancestorsOf]

theorem chain_members_under_root (n : LName) (h : isInitSeg rootName n = true)
    (m : LName) (hm : m ∈ chainNames n) : isInitSeg rootName m = true := by
  rw [rootName_eq] at h ⊢
  match n with
  | [] => simp [isInitSeg] at h
  | a :: rest =>
    simp only [isInitSeg, Bool.and_eq_true, decide_eq_true_eq] at h
    obtain ⟨rfl, -⟩ := h
    simp only [chainNames, List.mem_cons] at hm
    rcases hm with rfl | hm
    · simp [isInitSeg]
    · match rest with
      | [] => simp [ancestorsOf] at hm
      | b :: rest2 =>
        simp only [ancestorsOf, List.mem_append, List.mem_map, List.mem_singleton] at hm
        rcases hm with ⟨m2, -, rfl⟩ | rfl <;> simp [isInitSeg]

/-- If some logger in the chain has `propagate = False`, the walk never
consults the ambient root logger: the collected handlers are independent of
it. -/
theorem walkChain_stops (ls : List PyLogger) (hstop : ¬ (ls.all (fun l => l.propagate)) = true)
    (a b : PyLogger) : walkChain a ls = walkChain b ls := by
  induction ls with
  | nil => simp at hstop
  | cons l rest ih =>
    simp only [List.all_cons, Bool.and_eq_true] at hstop
    by_cases hp : l.propagate
    · have : ¬ (rest.all (fun l => l.propagate)) = true := fun hh => hstop ⟨hp, hh⟩
      simp [walkChain, hp, ih this]
    · simp [walkChain, hp]

theorem all_propagate_false_of_mem (ls : List PyLogger) (l : PyLogger)
    (hmem : l ∈ ls) (hp : l.propagate = false) :
    (ls.all (fun l => l.propagate)) = false := by
  cases h : (ls.all (fun l => l.propagate)) with
  | false => rfl
  | true =>
    rw [List.all_eq_true] at h
    have := h l hmem
    rw [hp] at this
    cases this

theorem mem_chainLoggers_of_found (st : Registry) (n m : LName) (l : PyLogger)
    (hmem : m ∈ chainNames n) (hf : regFind st m = some l) : l ∈ chainLoggers st n := by
  unfold chainLoggers
  rw [List.mem_filterMap]
  exact ⟨m, hmem, hf⟩

/-! ### Invariant preservation across operations -/

theorem rootIsolated_ensure (st : Registry) (m : LName) (h : rootIsolated st = true) :
    rootIsolated (ensureLogger st m) = true := by
  unfold rootIsolated at h ⊢
  cases hf : regFind st rootName with
  | none => rw [hf] at h; cases h
  | some l => rw [ensure_pres st m rootName l hf]; rw [hf] at h; exact h

theorem rootIsolated_regSet_ne (st : Registry) (m : LName) (f : PyLogger → PyLogger)
    (hm : rootName ≠ m) (h : rootIsolated st = true) :
    rootIsolated (regSet st m f) = true := by
  unfold rootIsolated at h ⊢
  rw [regFind_regSet_ne st m rootName f hm]
  exact h

theorem setup_rootIsolated_val (cfg : Config) (fs : FsOutcome) (st : Registry) (v : Int)
    (hv : resolveLevel cfg.log_level 20 = LevelResolution.val v) :
    rootIsolated (setupLogger cfg fs st).1 = true := by
  obtain ⟨l0, hl0⟩ := ensure_self st rootName
  unfold setupLogger
  rw [hv]
  cases hc : cfg.enable_console <;> cases hf : cfg.enable_file <;>
    cases hmk : fs.mkdirOk <;> cases hop : fs.openOk <;>
      simp [rootIsolated, regFind_regSet_self, hl0]

theorem setup_pres_rootIsolated (cfg : Config) (fs : FsOutcome) (st : Registry)
    (h : rootIsolated st = true) : rootIsolated (setupLogger cfg fs st).1 = true := by
  cases hv : resolveLevel cfg.log_level 20 with
  | val v => exact setup_rootIsolated_val cfg fs st v hv
  | raises =>
    unfold setupLogger
    rw [hv]
    exact rootIsolated_ensure st rootName h

theorem getL_pres_rootIsolated (name : Option String) (st : Registry)
    (h : rootIsolated st = true) : rootIsolated (getLogger name st).2 = true := by
  cases name with
  | none => exact rootIsolated_ensure st rootName h
  | some n =>
    by_cases hn : n = ""
    · simp only [getLogger, if_pos hn]
      exact rootIsolated_ensure st rootName h
    · simp only [getLogger, if_neg hn]
      exact rootIsolated_ensure st _ h

theorem suppressLoop_pres_rootIsolated (names : List String) (lv : LevelResolution)
    (st : Registry) (hnames : ∀ n ∈ names, splitDots n ≠ rootName)
    (h : rootIsolated st = true) :
    rootIsolated (suppressLoop lv names st).1 = true := by
  induction names generalizing st with
  | nil => exact h
  | cons n rest ih =>
    unfold suppressLoop
    cases lv with
    | raises => exact rootIsolated_ensure st _ h
    | val v =>
      apply ih _ (fun m hm => hnames m (List.mem_cons_of_mem n hm))
      have hne : rootName ≠ splitDots n :=
        fun hh => hnames n (List.mem_cons_self n rest) hh.symm
      exact rootIsolated_regSet_ne _ _ _ hne
        (rootIsolated_regSet_ne _ _ _ hne (rootIsolated_ensure st _ h))

theorem suppress_pres_rootIsolated (level : String) (st : Registry)
    (h : rootIsolated st = true) :
    rootIsolated (setupThirdPartyLogging level st).1 = true := by
  apply suppressLoop_pres_rootIsolated _ _ _ _ h
  intro n hn
  fin_cases hn <;> decide

theorem runOps_pres_rootIsolated (ops : List Op) (st : Registry)
    (h : rootIsolated st = true) : rootIsolated (runOps ops st) = true := by
  induction ops generalizing st with
  | nil => exact h
  | cons op rest ih =>
    apply ih
    cases op with
    | setup cfg fs => exact setup_pres_rootIsolated cfg fs st h
    | getL n => exact getL_pres_rootIsolated n st h
    | suppress lv => exact suppress_pres_rootIsolated lv st h

/-! ### Subtree delegation lemmas -/

theorem regFind_mem (st : Registry) (n : LName) (l : PyLogger)
    (h : regFind st n = some l) : (n, l) ∈ st := by
  induction st with
  | nil => simp [regFind] at h
  | cons p rest ih =>
    obtain ⟨m, l2⟩ := p
    by_cases hm : m = n
    · subst hm
      rw [regFind, if_pos rfl] at h
      obtain rfl : l2 = l := Option.some_injective _ h
      exact List.mem_cons_self _ _
    · rw [regFind, if_neg hm] at h
      exact List.mem_cons_of_mem _ (ih h)

theorem subtreeClean_spec (st : Registry) (m : LName) (lm : PyLogger)
    (hclean : subtreeClean st = true) (hf : regFind st m = some lm)
    (hseg : isInitSeg rootName m = true) (hne : m ≠ rootName) :
    lm.handlers = [] ∧ lm.propagate = true := by
  have hmem := regFind_mem st m lm hf
  unfold subtreeClean at hclean
  rw [List.all_eq_true] at hclean
  have hp := hclean (m, lm) hmem
  simp only [hseg, hne, decide_eq_true_eq, Bool.and_true, Bool.and_eq_true,
    Bool.or_eq_true, Bool.not_eq_true'] at hp
  rcases hp with hp | hp
  · simp [hseg, hne] at hp
  · exact ⟨List.isEmpty_iff.mp hp.1, hp.2⟩

theorem walkChain_subtree (st : Registry) (ambient : PyLogger) (ms : List LName)
    (lroot : PyLogger) (hroot : regFind st rootName = some lroot)
    (hprop : lroot.propagate = false) (hclean : subtreeClean st = true)
    (hms : ∀ m ∈ ms, isInitSeg rootName m = true ∧ m ≠ rootName) :
    walkChain ambient ((ms ++ [rootName]).filterMap (fun m => regFind st m)) =
      lroot.handlers := by
  induction ms with
  | nil =>
    simp only [List.nil_append, List.filterMap_cons, hroot, List.filterMap_nil]
    simp [walkChain, hprop]
  | cons m rest ih =>
    simp only [List.cons_append, List.filterMap_cons]
    cases hf : regFind st m with
    | none => exact ih (fun m2 hm2 => hms m2 (List.mem_cons_of_mem m hm2))
    | some lm =>
      obtain ⟨hseg, hne⟩ := hms m (List.mem_cons_self m rest)
      obtain ⟨hh, hp⟩ := subtreeClean_spec st m lm hclean hf hseg hne
      simp only [walkChain, hh, hp, if_true, List.nil_append]
      exact ih (fun m2 hm2 => hms m2 (List.mem_cons_of_mem m hm2))

/-- Emission on the dedicated root logger itself is delivered to exactly its
own handlers. -/
theorem collect_at_root (st : Registry) (ambient : PyLogger) (lroot : PyLogger)
    (hroot : regFind st rootName = some lroot) (hprop : lroot.propagate = false) :
    collectHandlers st ambient rootName = lroot.handlers := by
  unfold collectHandlers chainLoggers chainNames
  rw [rootName_eq] at hroot ⊢
  simp only [ancestorsOf, List.filterMap_cons, List.filterMap_nil, hroot]
  simp [walkChain, hprop]

/-- Emission on any strict descendant of the dedicated root logger is
delivered to exactly the root's handlers, provided the subtree is clean. -/
theorem collect_at_child (st : Registry) (ambient : PyLogger) (xs : LName)
    (lroot : PyLogger) (hx : xs ≠ [])
    (hroot : regFind st rootName = some lroot) (hprop : lroot.propagate = false)
    (hclean : subtreeClean st = true) :
    collectHandlers st ambient ("mariadb_mcp" :: xs) = lroot.handlers := by
  match xs, hx with
  | b :: rest, _ =>
    have hdecomp : chainNames ("mariadb_mcp" :: b :: rest) =
        (("mariadb_mcp" :: b :: rest) ::
          (ancestorsOf (b :: rest)).map (fun m => "mariadb_mcp" :: m)) ++ [rootName] := by
      simp [chainNames, ancestorsOf, rootName_eq]
    unfold collectHandlers chainLoggers
    rw [hdecomp]
    apply walkChain_subtree st ambient _ lroot hroot hprop hclean
    intro m hm
    simp only [List.mem_cons, List.mem_map] at hm
    rcases hm with rfl | ⟨m2, hm2, rfl⟩
    · refine ⟨by simp [isInitSeg, rootName_eq], ?_⟩
      rw [rootName_eq]
      simp
    · refine ⟨by simp [isInitSeg, rootName_eq], ?_⟩
      rw [rootName_eq]
      have := ancestorsOf_mem_ne_nil (b :: rest) m2 hm2
      simp [this]

/-! ### Further `setup_logger` / registry characterisation -/

theorem setup_snd_char (cfg : Config) (fs : FsOutcome) (st : Registry) (v : Int)
    (hv : resolveLevel cfg.log_level 20 = LevelResolution.val v)
    (hfile : cfg.enable_file = true) :
    (setupLogger cfg fs st).2 =
      (if fs.mkdirOk then (if fs.openOk then none else some PyError.openError)
       else some PyError.mkdirError) := by
  unfold setupLogger
  rw [hv]
  cases hc : cfg.enable_console <;> cases hmk : fs.mkdirOk <;> cases hop : fs.openOk <;>
    simp [hfile]

theorem setup_snd_raises (cfg : Config) (fs : FsOutcome) (st : Registry)
    (hv : resolveLevel cfg.log_level 20 = LevelResolution.raises) :
    (setupLogger cfg fs st).2 = some PyError.levelError := by
  unfold setupLogger
  rw [hv]

theorem setup_success_level (cfg : Config) (fs : FsOutcome) (st : Registry)
    (h : (setupLogger cfg fs st).2 = none) :
    ∃ v, resolveLevel cfg.log_level 20 = LevelResolution.val v := by
  cases hv : resolveLevel cfg.log_level 20 with
  | val v => exact ⟨v, rfl⟩
  | raises => rw [setup_snd_raises cfg fs st hv] at h; cases h

theorem setup_success_fs (cfg : Config) (fs : FsOutcome) (st : Registry)
    (hfile : cfg.enable_file = true) (h : (setupLogger cfg fs st).2 = none) :
    fs.mkdirOk = true ∧ fs.openOk = true := by
  obtain ⟨v, hv⟩ := setup_success_level cfg fs st h
  rw [setup_snd_char cfg fs st v hv hfile] at h
  cases hmk : fs.mkdirOk <;> cases hop : fs.openOk <;> rw [hmk, hop] at h <;>
    simp at h <;> exact ⟨rfl, rfl⟩

theorem subtreeClean_ensure (st : Registry) (m : LName) (h : subtreeClean st = true) :
    subtreeClean (ensureLogger st m) = true := by
  unfold ensureLogger
  cases hf : regFind st m with
  | some _ => exact h
  | none =>
    unfold subtreeClean at h ⊢
    rw [List.all_append, h]
    simp [newLogger]

theorem regInv_getL (name : Option String) (st : Registry) (h : regInv st = true) :
    regInv (getLogger name st).2 = true := by
  obtain ⟨h1, h2⟩ := Bool.and_eq_true_iff.mp h
  unfold regInv
  rw [Bool.and_eq_true_iff]
  exact ⟨getL_pres_rootIsolated name st h1, by
    cases name with
    | none => exact subtreeClean_ensure st rootName h2
    | some n =>
      by_cases hn : n = ""
      · simp only [getLogger, if_pos hn]
        exact subtreeClean_ensure st rootName h2
      · simp only [getLogger, if_neg hn]
        exact subtreeClean_ensure st _ h2⟩

/-! ### `setup_third_party_logging` frame lemmas -/

theorem suppressLoop_frame (names : List String) (lv : LevelResolution) (st : Registry)
    (n : LName) (l : PyLogger) (hf : regFind st n = some l)
    (hn : ∀ m ∈ names, splitDots m ≠ n) :
    regFind (suppressLoop lv names st).1 n = some l := by
  induction names generalizing st with
  | nil => exact hf
  | cons m rest ih =>
    unfold suppressLoop
    have hf1 := ensure_pres st (splitDots m) n l hf
    cases lv with
    | raises => exact hf1
    | val v =>
      have hne : n ≠ splitDots m := fun hh => hn m (List.mem_cons_self m rest) hh.symm
      refine ih _ ?_ (fun m2 hm2 => hn m2 (List.mem_cons_of_mem m hm2))
      rw [regFind_regSet_ne _ _ _ _ hne, regFind_regSet_ne _ _ _ _ hne]
      exact hf1

theorem suppressLoop_handlers (names : List String) (lv : LevelResolution) (st : Registry)
    (n : LName) (l : PyLogger) (hf : regFind st n = some l) :
    ∃ l', regFind (suppressLoop lv names st).1 n = some l' ∧ l'.handlers = l.handlers := by
  induction names generalizing st l with
  | nil => exact ⟨l, hf, rfl⟩
  | cons m rest ih =>
    unfold suppressLoop
    have hf1 := ensure_pres st (splitDots m) n l hf
    cases lv with
    | raises => exact ⟨l, hf1, rfl⟩
    | val v =>
      by_cases heq : splitDots m = n
      · subst heq
        have hf2 : regFind
            (regSet (regSet (ensureLogger st (splitDots m)) (splitDots m)
              (fun l => { l with level := v })) (splitDots m)
              (fun l => { l with propagate := true })) (splitDots m) =
            some { l with level := v, propagate := true } := by
          rw [regFind_regSet_self, regFind_regSet_self, hf1]
          rfl
        obtain ⟨l', hl', hh⟩ := ih _ _ hf2
        exact ⟨l', hl', hh⟩
      · have hne : n ≠ splitDots m := fun hh => heq hh.symm
        apply ih
        rw [regFind_regSet_ne _ _ _ _ hne, regFind_regSet_ne _ _ _ _ hne]
        exact hf1

theorem suppressLoop_val_snd (names : List String) (v : Int) (st : Registry) :
    (suppressLoop (LevelResolution.val v) names st).2 = none := by
  induction names generalizing st with
  | nil => rfl
  | cons m rest ih =>
    unfold suppressLoop
    exact ih _

theorem suppressLoop_sets (names : List String) (v : Int) (st : Registry)
    (hnd : (names.map splitDots).Nodup) :
    ∀ n ∈ names,
      (regFind (suppressLoop (LevelResolution.val v) names st).1 (splitDots n)).map
        (fun l => (l.level, l.propagate)) = some (v, true) := by
  induction names generalizing st with
  | nil => intro n hn; cases hn
  | cons m rest ih =>
    intro n hn
    simp only [List.map_cons, List.nodup_cons] at hnd
    obtain ⟨hm, hrest⟩ := hnd
    obtain ⟨l0, hl0⟩ := ensure_self st (splitDots m)
    have hf2 : regFind
        (regSet (regSet (ensureLogger st (splitDots m)) (splitDots m)
          (fun l => { l with level := v })) (splitDots m)
          (fun l => { l with propagate := true })) (splitDots m) =
        some { l0 with level := v, propagate := true } := by
      rw [regFind_regSet_self, regFind_regSet_self, hl0]
      rfl
    rcases List.mem_cons.mp hn with rfl | hn2
    · unfold suppressLoop
      rw [suppressLoop_frame rest _ _ _ _ hf2
            (fun m2 hm2 hh => hm (hh ▸ List.mem_map_of_mem splitDots hm2))]
      rfl
    · unfold suppressLoop
      exact ih _ hrest n hn2

/-! ### Formatter lemmas -/

theorem alGet_addFields_of_ne_pt (r : PyRecord) (extras : JRecord) (k : String)
    (h1 : k ≠ "process") (h2 : k ≠ "thread") :
    alGet (addFields r extras) k = alGet (addFieldsCtx r extras) k := by
  have hproc : alGet (addFieldsProc r extras) k = alGet (addFieldsCtx r extras) k := by
    cases hp : r.process with
    | none => simp only [addFieldsProc, hp]
    | some p =>
      by_cases h0 : p = 0
      · simp only [addFieldsProc, hp, if_pos h0]
      · simp only [addFieldsProc, hp, if_neg h0]
        rw [alGet_alSet_ne _ _ _ _ h1]
  cases ht : r.thread with
  | none => simp only [addFields, ht]; exact hproc
  | some t =>
    by_cases h0 : t = 0
    · simp only [addFields, ht, if_pos h0]; exact hproc
    · simp only [addFields, ht, if_neg h0]
      rw [alGet_alSet_ne _ _ _ _ h2]
      exact hproc

theorem alGet_addFields_level (r : PyRecord) (extras : JRecord) :
    alGet (addFields r extras) "level" = some (JVal.str r.levelname) := by
  rw [alGet_addFields_of_ne_pt r extras _ (by decide) (by decide)]
  unfold addFieldsCtx
  rw [alGet_alSet_ne _ _ _ _ (by decide), alGet_alSet_ne _ _ _ _ (by decide),
      alGet_alSet_ne _ _ _ _ (by decide), alGet_alSet_ne _ _ _ _ (by decide),
      alGet_alSet_self]

theorem alGet_addFields_logger (r : PyRecord) (extras : JRecord) :
    alGet (addFields r extras) "logger" = some (JVal.str r.name) := by
  rw [alGet_addFields_of_ne_pt r extras _ (by decide) (by decide)]
  unfold addFieldsCtx
  rw [alGet_alSet_ne _ _ _ _ (by decide), alGet_alSet_ne _ _ _ _ (by decide),
      alGet_alSet_ne _ _ _ _ (by decide), alGet_alSet_self]

theorem alGet_addFields_module (r : PyRecord) (extras : JRecord) :
    alGet (addFields r extras) "module" = some (JVal.str r.module) := by
  rw [alGet_addFields_of_ne_pt r extras _ (by decide) (by decide)]
  unfold addFieldsCtx
  rw [alGet_alSet_ne _ _ _ _ (by decide), alGet_alSet_ne _ _ _ _ (by decide),
      alGet_alSet_self]

theorem alGet_addFields_function (r : PyRecord) (extras : JRecord) :
    alGet (addFields r extras) "function" = some (JVal.str r.funcName) := by
  rw [alGet_addFields_of_ne_pt r extras _ (by decide) (by decide)]
  unfold addFieldsCtx
  rw [alGet_alSet_ne _ _ _ _ (by decide), alGet_alSet_self]

theorem alGet_addFields_line (r : PyRecord) (extras : JRecord) :
    alGet (addFields r extras) "line" = some (JVal.int r.lineno) := by
  rw [alGet_addFields_of_ne_pt r extras _ (by decide) (by decide)]
  unfold addFieldsCtx
  rw [alGet_alSet_self]

theorem alGet_addFields_timestamp (r : PyRecord) (extras : JRecord) :
    alGet (addFields r extras) "timestamp" =
      (if truthy (alGet (superAddFields r extras) "timestamp")
       then alGet (superAddFields r extras) "timestamp"
       else some (JVal.str r.asctime)) := by
  rw [alGet_addFields_of_ne_pt r extras _ (by decide) (by decide)]
  unfold addFieldsCtx addFieldsTs
  rw [alGet_alSet_ne _ _ _ _ (by decide), alGet_alSet_ne _ _ _ _ (by decide),
      alGet_alSet_ne _ _ _ _ (by decide), alGet_alSet_ne _ _ _ _ (by decide),
      alGet_alSet_ne _ _ _ _ (by decide)]
  by_cases ht : truthy (alGet (superAddFields r extras) "timestamp")
  · rw [if_pos ht, if_pos ht]
  · rw [if_neg ht, if_neg ht, alGet_alSet_self]

theorem alGet_addFieldsCtx_process (r : PyRecord) (extras : JRecord)
    (h : alGet extras "process" = none) :
    alGet (addFieldsCtx r extras) "process" = none := by
  unfold addFieldsCtx addFieldsTs
  rw [alGet_alSet_ne _ _ _ _ (by decide), alGet_alSet_ne _ _ _ _ (by decide),
      alGet_alSet_ne _ _ _ _ (by decide), alGet_alSet_ne _ _ _ _ (by decide),
      alGet_alSet_ne _ _ _ _ (by decide)]
  have hsup : alGet (superAddFields r extras) "process" = none := by
    unfold superAddFields
    rw [foldl_alSet_get_of_absent extras _ _ h]
    rfl
  by_cases ht : truthy (alGet (superAddFields r extras) "timestamp")
  · rw [if_pos ht]; exact hsup
  · rw [if_neg ht, alGet_alSet_ne _ _ _ _ (by decide)]; exact hsup

theorem alGet_addFieldsCtx_thread (r : PyRecord) (extras : JRecord)
    (h : alGet extras "thread" = none) :
    alGet (addFieldsCtx r extras) "thread" = none := by
  unfold addFieldsCtx addFieldsTs
  rw [alGet_alSet_ne _ _ _ _ (by decide), alGet_alSet_ne _ _ _ _ (by decide),
      alGet_alSet_ne _ _ _ _ (by decide), alGet_alSet_ne _ _ _ _ (by decide),
      alGet_alSet_ne _ _ _ _ (by decide)]
  have hsup : alGet (superAddFields r extras) "thread" = none := by
    unfold superAddFields
    rw [foldl_alSet_get_of_absent extras _ _ h]
    rfl
  by_cases ht : truthy (alGet (superAddFields r extras) "timestamp")
  · rw [if_pos ht]; exact hsup
  · rw [if_neg ht, alGet_alSet_ne _ _ _ _ (by decide)]; exact hsup

theorem alGet_addFields_process (r : PyRecord) (extras : JRecord)
    (h : alGet extras "process" = none) :
    alGet (addFields r extras) "process" =
      (match r.process with
       | some p => if p = 0 then none else some (JVal.int p)
       | none => none) := by
  have hctx := alGet_addFieldsCtx_process r extras h
  have hproc : alGet (addFieldsProc r extras) "process" =
      (match r.process with
       | some p => if p = 0 then none else some (JVal.int p)
       | none => none) := by
    cases hp : r.process with
    | none => simp only [addFieldsProc, hp]; exact hctx
    | some p =>
      by_cases h0 : p = 0
      · simp only [addFieldsProc, hp, if_pos h0]; exact hctx
      · simp only [addFieldsProc, hp, if_neg h0]
        rw [alGet_alSet_self]
  cases ht : r.thread with
  | none => simp only [addFields, ht]; exact hproc
  | some t =>
    by_cases h0 : t = 0
    · simp only [addFields, ht, if_pos h0]; exact hproc
    · simp only [addFields, ht, if_neg h0]
      rw [alGet_alSet_ne _ _ _ _ (by decide)]
      exact hproc

theorem alGet_addFields_thread (r : PyRecord) (extras : JRecord)
    (h : alGet extras "thread" = none) :
    alGet (addFields r extras) "thread" =
      (match r.thread with
       | some t => if t = 0 then none else some (JVal.int t)
       | none => none) := by
  have hctx := alGet_addFieldsCtx_thread r extras h
  have hproc : alGet (addFieldsProc r extras) "thread" = none := by
    cases hp : r.process with
    | none => simp only [addFieldsProc, hp]; exact hctx
    | some p =>
      by_cases h0 : p = 0
      · simp only [addFieldsProc, hp, if_pos h0]; exact hctx
      · simp only [addFieldsProc, hp, if_neg h0]
        rw [alGet_alSet_ne _ _ _ _ (by decide)]
        exact hctx
  cases ht : r.thread with
  | none => simp only [addFields, ht]; exact hproc
  | some t =>
    by_cases h0 : t = 0
    · simp only [addFields, ht, if_pos h0, if_pos h0]; exact hproc
    · simp only [addFields, ht, if_neg h0, if_neg h0]
      rw [alGet_alSet_self]

/-! ### `get_logger` lemmas -/

theorem ensure_idem (st : Registry) (n : LName) :
    ensureLogger (ensureLogger st n) n = ensureLogger st n := by
  obtain ⟨l, hl⟩ := ensure_self st n
  show (match regFind (ensureLogger st n) n with
        | some _ => ensureLogger st n
        | none => ensureLogger st n ++ [(n, newLogger)]) = ensureLogger st n
  rw [hl]

set_option maxHeartbeats 1000000 in
theorem resolveLevel_table (s : String) :
    resolveLevel s 20 =
      (if pyUpper s = "CRITICAL" then LevelResolution.val 50
       else if pyUpper s = "FATAL" then LevelResolution.val 50
       else if pyUpper s = "ERROR" then LevelResolution.val 40
       else if pyUpper s = "WARNING" then LevelResolution.val 30
       else if pyUpper s = "WARN" then LevelResolution.val 30
       else if pyUpper s = "INFO" then LevelResolution.val 20
       else if pyUpper s = "DEBUG" then LevelResolution.val 10
       else if pyUpper s = "NOTSET" then LevelResolution.val 0
       else if pyUpper s = "BASIC_FORMAT" then LevelResolution.raises
       else if pyUpper s = "_STYLES" then LevelResolution.raises
       else LevelResolution.val 20) := by
  unfold resolveLevel getattrUpper
  split_ifs <;> rfl

/-! ### The claims -/

/-- C1: re-running `setup_logger` is idempotent with respect to sinks.
Whatever a first call (with any configuration and filesystem outcome) left
behind, a second call that completes leaves the dedicated logger with
exactly the handler set selected by the second configuration's
console/file flags and with the second configuration's severity threshold;
no handler from the first call survives, the handler count equals the
number of enabled sinks, and an emission on the root logger is delivered
exactly once per enabled sink. -/
theorem c1_reinit_exact_sinks (c1 c2 : Config) (fs1 fs2 : FsOutcome) (st : Registry)
    (ambient : PyLogger)
    (h : (setupLogger c2 fs2 (setupLogger c1 fs1 st).1).2 = none) :
    ∃ v, resolveLevel c2.log_level 20 = LevelResolution.val v ∧
      regFind (setupLogger c2 fs2 (setupLogger c1 fs1 st).1).1 rootName =
        some { level := v, propagate := false, handlers := expectedHandlers c2 } ∧
      (expectedHandlers c2).length =
        ((if c2.enable_console then 1 else 0) + (if c2.enable_file then 1 else 0)) ∧
      collectHandlers (setupLogger c2 fs2 (setupLogger c1 fs1 st).1).1 ambient rootName =
        expectedHandlers c2 := by
  obtain ⟨v, hv⟩ := setup_success_level _ _ _ h
  obtain ⟨-, hroot⟩ := setup_success_root c2 fs2 _ v hv
    (fun hf => setup_success_fs _ _ _ hf h)
  refine ⟨v, hv, hroot, ?_, ?_⟩
  · cases hc : c2.enable_console <;> cases hf : c2.enable_file <;>
      simp [expectedHandlers, hc, hf]
  · exact collect_at_root _ ambient _ hroot rfl

theorem c1_reinit_exact_sinks_witness :
    ∃ v, resolveLevel "warning" 20 = LevelResolution.val v ∧
      regFind (setupLogger { log_level := "warning", enable_file := false } ⟨true, true⟩
          (setupLogger {} ⟨true, true⟩ []).1).1 rootName =
        some { level := v, propagate := false,
               handlers := expectedHandlers { log_level := "warning", enable_file := false } } ∧
      (expectedHandlers { log_level := "warning", enable_file := false }).length = (1 + 0) ∧
      collectHandlers (setupLogger { log_level := "warning", enable_file := false } ⟨true, true⟩
          (setupLogger {} ⟨true, true⟩ []).1).1
          { level := 30, propagate := true, handlers := [Handler.stream] } rootName =
        expectedHandlers { log_level := "warning", enable_file := false } := by
  have h := c1_reinit_exact_sinks {} { log_level := "warning", enable_file := false }
    ⟨true, true⟩ ⟨true, true⟩ []
    { level := 30, propagate := true, handlers := [Handler.stream] } (by decide)
  simpa using h

/-- C2 counterexample: the claim says a caller-supplied extra never
overwrites a guaranteed field, the guaranteed field's value winning on
collision. For the guaranteed `timestamp` field this fails: the formatter
only fills `timestamp` when the merged record holds a falsy value for it
(line 27), so a caller-supplied truthy `timestamp` extra survives and the
formatter's own time string does not appear. -/
theorem c2_guaranteed_fields_counterexample :
    alGet (addFields
      { name := "mariadb_mcp", levelname := "INFO", module := "server",
        funcName := "main", lineno := 10, message := JVal.str "hello",
        process := none, thread := none, asctime := "2025-01-01 00:00:00" }
      [("timestamp", JVal.str "bogus")]) "timestamp" = some (JVal.str "bogus") ∧
    JVal.str "bogus" ≠ JVal.str "2025-01-01 00:00:00" := by decide

/-- C2 amended: the guaranteed fields `level`, `logger`, `module`,
`function`, `line` are always present and take precedence over any
caller-supplied extra of the same key; `timestamp` is always present, but
on a collision the caller's truthy extra wins, the formatter's time string
being used only when the merged record holds no truthy timestamp. -/
theorem c2_guaranteed_fields_amended (r : PyRecord) (extras : JRecord) :
    alGet (addFields r extras) "level" = some (JVal.str r.levelname) ∧
    alGet (addFields r extras) "logger" = some (JVal.str r.name) ∧
    alGet (addFields r extras) "module" = some (JVal.str r.module) ∧
    alGet (addFields r extras) "function" = some (JVal.str r.funcName) ∧
    alGet (addFields r extras) "line" = some (JVal.int r.lineno) ∧
    alGet (addFields r extras) "timestamp" =
      (if truthy (alGet (superAddFields r extras) "timestamp")
       then alGet (superAddFields r extras) "timestamp"
       else some (JVal.str r.asctime)) ∧
    (alGet (addFields r extras) "timestamp").isSome = true := by
  refine ⟨alGet_addFields_level r extras, alGet_addFields_logger r extras,
    alGet_addFields_module r extras, alGet_addFields_function r extras,
    alGet_addFields_line r extras, alGet_addFields_timestamp r extras, ?_⟩
  rw [alGet_addFields_timestamp r extras]
  by_cases ht : truthy (alGet (superAddFields r extras) "timestamp")
  · rw [if_pos ht]
    cases hg : alGet (superAddFields r extras) "timestamp" with
    | none => rw [hg] at ht; cases ht
    | some w => rfl
  · rw [if_neg ht]
    rfl

/-- C3 counterexample: the claim says every severity string outside
DEBUG/INFO/WARNING/ERROR/CRITICAL falls back to INFO (20). But
`getattr(logging, "FATAL")` exists, so `setup_logger(log_level="fatal")`
sets the threshold to 50, not 20. -/
theorem c3_severity_counterexample :
    (regFind (setupLogger { log_level := "fatal" } ⟨true, true⟩ []).1 rootName).map
        (fun l => l.level) = some 50 ∧
    pyUpper "fatal" ∉ (["DEBUG", "INFO", "WARNING", "ERROR", "CRITICAL"] : List String) ∧
    (50 : Int) ≠ 20 := by decide

set_option maxHeartbeats 2000000

/-- C3 amended: the five documented names are honoured case-insensitively,
but so is every other all-uppercase attribute of the `logging` module:
WARN maps to 30, FATAL to 50, NOTSET to 0; a string whose uppercase form is
BASIC_FORMAT (or _STYLES) makes `setLevel` raise instead; only strings whose
uppercase form is none of these fall back to INFO (20). -/
theorem c3_severity_amended (cfg : Config) (fs : FsOutcome) (st : Registry) :
    ((setupLogger cfg fs st).2 = none →
      (regFind (setupLogger cfg fs st).1 rootName).map (fun l => l.level) =
        some (if pyUpper cfg.log_level = "CRITICAL" then 50
          else if pyUpper cfg.log_level = "FATAL" then 50
          else if pyUpper cfg.log_level = "ERROR" then 40
          else if pyUpper cfg.log_level = "WARNING" then 30
          else if pyUpper cfg.log_level = "WARN" then 30
          else if pyUpper cfg.log_level = "INFO" then 20
          else if pyUpper cfg.log_level = "DEBUG" then 10
          else if pyUpper cfg.log_level = "NOTSET" then 0
          else (20 : Int))) ∧
    (pyUpper cfg.log_level = "BASIC_FORMAT" →
      (setupLogger cfg fs st).2 = some PyError.levelError) := by
  constructor
  · intro h
    obtain ⟨v, hv⟩ := setup_success_level cfg fs st h
    obtain ⟨-, hroot⟩ := setup_success_root cfg fs st v hv
      (fun hf => setup_success_fs cfg fs st hf h)
    rw [hroot]
    simp only [Option.map_some']
    rw [resolveLevel_table] at hv
    split_ifs at hv ⊢ <;> (cases hv <;> rfl)
  · intro hb
    apply setup_snd_raises
    rw [resolveLevel_table, hb]
    decide

set_option maxHeartbeats 200000

theorem c3_severity_amended_witness :
    (regFind (setupLogger { log_level := "warning" } ⟨true, true⟩ []).1 rootName).map
      (fun l => l.level) = some 30 := by
  have h := (c3_severity_amended { log_level := "warning" } ⟨true, true⟩ []).1 (by decide)
  rw [h]
  decide

/-- A configuration with non-positive size and backup-count values, file
sink only. -/
def nonPositiveConfig : Config where
  log_level := "INFO"
  log_file_path := "logs/mcp_server.log"
  log_max_bytes := 0
  log_backup_count := -3
  enable_console := false
  enable_file := true

/-- C4 counterexample: the claim says a non-positive max-file-size or
backup-count is replaced by the documented defaults (10 MiB, 5 backups).
`setup_logger` passes both values to the rotating handler verbatim: with
`log_max_bytes=0` and `log_backup_count=-3` the call completes and the
attached handler carries 0 and -3, not 10485760 and 5. -/
theorem c4_nonpositive_counterexample :
    (setupLogger nonPositiveConfig ⟨true, true⟩ []).2 = none ∧
    regFind (setupLogger nonPositiveConfig ⟨true, true⟩ []).1 rootName =
      some { level := 20, propagate := false,
             handlers := [Handler.rotatingFile "logs/mcp_server.log" 0 (-3)] } ∧
    (0 : Int) ≠ 10 * 1024 * 1024 ∧ (-3 : Int) ≠ 5 := by decide

/-- C4 amended: a configuration with non-positive max-file-size or
backup-count does not make `setup_logger` fail (when the filesystem
cooperates and the severity string resolves), but the invalid values are
not replaced either: they are handed to the rotating handler verbatim, and
a non-positive max-file-size disables rotation entirely
(`shouldRollover` is false for every file size). The documented defaults
apply only when the keyword arguments are omitted. -/
theorem c4_nonpositive_amended (cfg : Config) (fs : FsOutcome) (st : Registry) (v : Int)
    (size msgLen : Int)
    (hfile : cfg.enable_file = true) (hmk : fs.mkdirOk = true) (hop : fs.openOk = true)
    (hv : resolveLevel cfg.log_level 20 = LevelResolution.val v) :
    (setupLogger cfg fs st).2 = none ∧
    regFind (setupLogger cfg fs st).1 rootName =
      some { level := v, propagate := false, handlers := expectedHandlers cfg } ∧
    Handler.rotatingFile cfg.log_file_path cfg.log_max_bytes cfg.log_backup_count ∈
      expectedHandlers cfg ∧
    (cfg.log_max_bytes ≤ 0 → shouldRollover cfg.log_max_bytes size msgLen = false) := by
  obtain ⟨hsnd, hroot⟩ := setup_success_root cfg fs st v hv (fun _ => ⟨hmk, hop⟩)
  refine ⟨hsnd, hroot, ?_, ?_⟩
  · cases hc : cfg.enable_console <;> simp [expectedHandlers, hc, hfile]
  · intro hle
    have hng : ¬ (cfg.log_max_bytes > 0) := by omega
    simp [shouldRollover, hng]

theorem c4_nonpositive_amended_witness :
    (setupLogger nonPositiveConfig ⟨true, true⟩ []).2 = none ∧
    regFind (setupLogger nonPositiveConfig ⟨true, true⟩ []).1 rootName =
      some { level := 20, propagate := false, handlers := expectedHandlers nonPositiveConfig } ∧
    Handler.rotatingFile nonPositiveConfig.log_file_path nonPositiveConfig.log_max_bytes
        nonPositiveConfig.log_backup_count ∈ expectedHandlers nonPositiveConfig ∧
    (nonPositiveConfig.log_max_bytes ≤ 0 → shouldRollover nonPositiveConfig.log_max_bytes 12345 100 = false) := by
  have h := c4_nonpositive_amended nonPositiveConfig ⟨true, true⟩ [] 20 12345 100 rfl rfl rfl (by decide)
  exact h

/-- A concrete raw record: the runtime supplied a process id and no
thread id. -/
def sampleRecord : PyRecord where
  name := "mariadb_mcp"
  levelname := "INFO"
  module := "server"
  funcName := "main"
  lineno := 10
  message := JVal.str "hello"
  process := some 4242
  thread := none
  asctime := "2025-01-01 00:00:00"

/-- C5: the emitted record carries the `process` field exactly when the
runtime supplied a process id and the `thread` field exactly when it
supplied a thread id, given that the runtime never supplies 0 for either
(`os.getpid()` and `threading.get_ident()` return nonzero values, `None`
standing for "not available") and the caller payload does not spoof the
keys; when the value is absent the field is simply omitted (the formatter
is a total function — nothing is raised). -/
theorem c5_process_thread_fields (r : PyRecord) (extras : JRecord)
    (hpe : alGet extras "process" = none) (hte : alGet extras "thread" = none)
    (hp : r.process ≠ some 0) (ht : r.thread ≠ some 0) :
    (alGet (addFields r extras) "process").isSome = r.process.isSome ∧
    (alGet (addFields r extras) "thread").isSome = r.thread.isSome ∧
    (r.process = none → alGet (addFields r extras) "process" = none) ∧
    (r.thread = none → alGet (addFields r extras) "thread" = none) := by
  have hps := alGet_addFields_process r extras hpe
  have hts := alGet_addFields_thread r extras hte
  refine ⟨?_, ?_, ?_, ?_⟩
  · rw [hps]
    cases hpp : r.process with
    | none => rfl
    | some p =>
      have h0 : ¬ p = 0 := fun hh => hp (by rw [hpp, hh])
      simp [h0]
  · rw [hts]
    cases htt : r.thread with
    | none => rfl
    | some t =>
      have h0 : ¬ t = 0 := fun hh => ht (by rw [htt, hh])
      simp [h0]
  · intro hn
    rw [hps, hn]
  · intro hn
    rw [hts, hn]

theorem c5_process_thread_fields_witness :
    (alGet (addFields sampleRecord []) "process").isSome = (some (4242 : Int)).isSome ∧
    (alGet (addFields sampleRecord []) "thread").isSome = (none : Option Int).isSome ∧
    (sampleRecord.process = none → alGet (addFields sampleRecord []) "process" = none) ∧
    (sampleRecord.thread = none → alGet (addFields sampleRecord []) "thread" = none) := by
  have h := c5_process_thread_fields sampleRecord [] rfl rfl (by decide) (by decide)
  exact h

/-- C6: after a completing `setup_logger` call, the dedicated logger has
propagation disabled, and this survives every further sequence of
`setup_logger`, `get_logger` and `setup_third_party_logging` operations.
Consequently an emission on the dedicated logger or any name below it
never walks through to the ambient process-global root logger: the chain
stops at the dedicated logger, and the delivered handler set does not
depend on the ambient logger at all. -/
theorem c6_isolation_invariant (cfg : Config) (fs : FsOutcome) (st : Registry)
    (ops : List Op) (n : LName) (a b : PyLogger)
    (h : (setupLogger cfg fs st).2 = none)
    (hn : isInitSeg rootName n = true) :
    rootIsolated (runOps ops (setupLogger cfg fs st).1) = true ∧
    reachesAmbient (runOps ops (setupLogger cfg fs st).1) n = false ∧
    collectHandlers (runOps ops (setupLogger cfg fs st).1) a n =
      collectHandlers (runOps ops (setupLogger cfg fs st).1) b n := by
  obtain ⟨v, hv⟩ := setup_success_level cfg fs st h
  have hiso := runOps_pres_rootIsolated ops _ (setup_rootIsolated_val cfg fs st v hv)
  have hstop : reachesAmbient (runOps ops (setupLogger cfg fs st).1) n = false := by
    cases hr : regFind (runOps ops (setupLogger cfg fs st).1) rootName with
    | none =>
      simp only [rootIsolated, hr] at hiso
      cases hiso
    | some lroot =>
      simp only [rootIsolated, hr] at hiso
      have hpf : lroot.propagate = false := by
        cases hlp : lroot.propagate
        · rfl
        · rw [hlp] at hiso; cases hiso
      unfold reachesAmbient
      exact all_propagate_false_of_mem _ lroot
        (mem_chainLoggers_of_found _ n rootName lroot (root_mem_chainNames n hn) hr) hpf
  refine ⟨hiso, hstop, ?_⟩
  unfold collectHandlers
  apply walkChain_stops
  unfold reachesAmbient at hstop
  rw [hstop]
  exact Bool.false_ne_true

theorem c6_isolation_invariant_witness :
    rootIsolated (runOps [Op.getL (some "db"), Op.suppress "ERROR",
      Op.setup {} ⟨true, true⟩] (setupLogger {} ⟨true, true⟩ []).1) = true ∧
    reachesAmbient (runOps [Op.getL (some "db"), Op.suppress "ERROR",
      Op.setup {} ⟨true, true⟩] (setupLogger {} ⟨true, true⟩ []).1)
      ["mariadb_mcp", "db"] = false ∧
    collectHandlers (runOps [Op.getL (some "db"), Op.suppress "ERROR",
        Op.setup {} ⟨true, true⟩] (setupLogger {} ⟨true, true⟩ []).1)
      { level := 30, propagate := true, handlers := [Handler.stream] }
      ["mariadb_mcp", "db"] =
    collectHandlers (runOps [Op.getL (some "db"), Op.suppress "ERROR",
        Op.setup {} ⟨true, true⟩] (setupLogger {} ⟨true, true⟩ []).1)
      { level := 0, propagate := true, handlers := [] }
      ["mariadb_mcp", "db"] := by
  have h := c6_isolation_invariant {} ⟨true, true⟩ [] [Op.getL (some "db"), Op.suppress "ERROR",
    Op.setup {} ⟨true, true⟩] ["mariadb_mcp", "db"]
    { level := 30, propagate := true, handlers := [Handler.stream] }
    { level := 0, propagate := true, handlers := [] } (by decide) (by decide)
  exact h

/-- A registry in which the externally-owned logger `fastmcp` was
configured (by its owning library) not to propagate. -/
def fastmcpConfigured : Registry :=
  [(["fastmcp"], { level := 0, propagate := false, handlers := [] })]

/-- C7 counterexample: the claim says `setup_third_party_logging` changes
only the minimum-severity attribute of its third-party loggers. It also
sets their `propagate` flag to true (line 153): a `fastmcp` logger whose
propagation was off has it forced on by the call. -/
theorem c7_suppress_counterexample :
    (regFind fastmcpConfigured (splitDots "fastmcp")).map (fun l => l.propagate) =
      some false ∧
    (regFind (setupThirdPartyLogging "WARNING" fastmcpConfigured).1
        (splitDots "fastmcp")).map (fun l => l.propagate) = some true := by decide

/-- C7 amended: `setup_third_party_logging` sets both the minimum severity
and the propagation flag (to true) of each logger in its fixed name list,
creating missing ones; it mutates nothing else: any logger outside the
list (the dedicated root logger in particular) keeps its entire state, no
handler list of any existing logger is touched, and the call completes
without error whenever the threshold string resolves. -/
theorem c7_suppress_amended (level : String) (st : Registry) (v : Int)
    (n : LName) (l : PyLogger) (tn : String) (m2 : LName) (l2 : PyLogger)
    (hv : resolveLevel level 30 = LevelResolution.val v)
    (htn : tn ∈ THIRD_PARTY_LOGGERS)
    (hf : regFind st n = some l)
    (hn : ∀ m ∈ THIRD_PARTY_LOGGERS, splitDots m ≠ n)
    (hf2 : regFind st m2 = some l2) :
    regFind (setupThirdPartyLogging level st).1 n = some l ∧
    (regFind (setupThirdPartyLogging level st).1 (splitDots tn)).map
      (fun l3 => (l3.level, l3.propagate)) = some (v, true) ∧
    (setupThirdPartyLogging level st).2 = none ∧
    (regFind (setupThirdPartyLogging level st).1 m2).map (fun l3 => l3.handlers) =
      some l2.handlers := by
  unfold setupThirdPartyLogging
  rw [hv]
  refine ⟨suppressLoop_frame _ _ _ _ _ hf hn,
    suppressLoop_sets THIRD_PARTY_LOGGERS v st (by decide) tn htn,
    suppressLoop_val_snd _ v _, ?_⟩
  obtain ⟨l3, hl3, hh⟩ := suppressLoop_handlers THIRD_PARTY_LOGGERS _ st m2 l2 hf2
  rw [hl3, Option.map_some', hh]

/-- A registry holding the configured dedicated root logger next to a
non-propagating `fastmcp` logger. -/
def mixedRegistry : Registry :=
  [(["mariadb_mcp"], { level := 20, propagate := false, handlers := [Handler.stream] }),
   (["fastmcp"], { level := 0, propagate := false, handlers := [] })]

theorem c7_suppress_amended_witness :
    regFind (setupThirdPartyLogging "ERROR" mixedRegistry).1 ["mariadb_mcp"] =
      some { level := 20, propagate := false, handlers := [Handler.stream] } ∧
    (regFind (setupThirdPartyLogging "ERROR" mixedRegistry).1 (splitDots "fastmcp")).map
      (fun l3 => (l3.level, l3.propagate)) = some (40, true) ∧
    (setupThirdPartyLogging "ERROR" mixedRegistry).2 = none ∧
    (regFind (setupThirdPartyLogging "ERROR" mixedRegistry).1 ["fastmcp"]).map
      (fun l3 => l3.handlers) =
      some (PyLogger.handlers { level := 0, propagate := false, handlers := [] }) := by
  have h := c7_suppress_amended "ERROR" mixedRegistry 40 ["mariadb_mcp"]
    { level := 20, propagate := false, handlers := [Handler.stream] } "fastmcp"
    ["fastmcp"] { level := 0, propagate := false, handlers := [] }
    (by decide) (by decide) (by decide) (by decide) (by decide)
  exact h

/-- C8: `get_logger` returns the dedicated root logger when `name` is
absent or empty, and otherwise the logger keyed `mariadb_mcp.<name>`
(created on first access). Under the registry invariant the child owns no
handlers of its own, an emission through it is delivered to exactly the
root logger's handler set, and the formatter stamps the child's own name
into the record's `logger` field. -/
theorem c8_get_logger_delegation (st : Registry) (n : String) (ambient lroot : PyLogger)
    (r : PyRecord) (extras : JRecord)
    (hn : n ≠ "") (hinv : regInv st = true)
    (hroot : regFind (getLogger (some n) st).2 rootName = some lroot)
    (hr : r.name = LOGGER_NAME ++ "." ++ n) :
    (getLogger none st).1 = rootName ∧
    (getLogger (some "") st).1 = rootName ∧
    (getLogger (some n) st).1 = splitDots (LOGGER_NAME ++ "." ++ n) ∧
    (regFind (getLogger (some n) st).2 (splitDots (LOGGER_NAME ++ "." ++ n))).map
      (fun l => l.handlers) = some [] ∧
    collectHandlers (getLogger (some n) st).2 ambient (splitDots (LOGGER_NAME ++ "." ++ n)) =
      lroot.handlers ∧
    alGet (addFields r extras) "logger" = some (JVal.str (LOGGER_NAME ++ "." ++ n)) := by
  have hinv' := regInv_getL (some n) st hinv
  obtain ⟨hiso', hclean'⟩ := Bool.and_eq_true_iff.mp hinv'
  have hst2 : (getLogger (some n) st).2 =
      ensureLogger st (splitDots (LOGGER_NAME ++ "." ++ n)) := by
    simp only [getLogger, if_neg hn]
  obtain ⟨lc, hlc⟩ := ensure_self st (splitDots (LOGGER_NAME ++ "." ++ n))
  rw [← hst2] at hlc
  have hchild := subtreeClean_spec _ _ _ hclean' hlc
    (isInitSeg_root_child n) (splitDots_child_ne_root n)
  have hpf : lroot.propagate = false := by
    simp only [rootIsolated, hroot] at hiso'
    cases hlp : lroot.propagate
    · rfl
    · rw [hlp] at hiso'; cases hiso'
  refine ⟨rfl, by simp [getLogger], by simp only [getLogger, if_neg hn], ?_, ?_, ?_⟩
  · rw [hlc, Option.map_some', hchild.1]
  · rw [splitDots_child]
    rw [splitDots_child] at hlc
    exact collect_at_child _ ambient (splitDots n) lroot (splitDots_ne_nil n)
      hroot hpf hclean'
  · rw [alGet_addFields_logger, hr]

/-- The registry as `setup_logger` leaves it with the default keyword
arguments and a cooperating filesystem. -/
def defaultSetupState : Registry := (setupLogger {} ⟨true, true⟩ []).1

/-- The logger state `setup_logger` installs on the dedicated logger under
the default configuration. -/
def defaultRootLogger : PyLogger where
  level := 20
  propagate := false
  handlers := [Handler.stream, Handler.rotatingFile "logs/mcp_server.log" 10485760 5]

/-- A raw record attributed to the child logger `mariadb_mcp.db`. -/
def childRecord : PyRecord where
  name := "mariadb_mcp.db"
  levelname := "INFO"
  module := "server"
  funcName := "main"
  lineno := 10
  message := JVal.str "hello"
  process := none
  thread := none
  asctime := "2025-01-01 00:00:00"

theorem c8_get_logger_delegation_witness :
    (getLogger none defaultSetupState).1 = rootName ∧
    (getLogger (some "") defaultSetupState).1 = rootName ∧
    (getLogger (some "db") defaultSetupState).1 = splitDots (LOGGER_NAME ++ "." ++ "db") ∧
    (regFind (getLogger (some "db") defaultSetupState).2
        (splitDots (LOGGER_NAME ++ "." ++ "db"))).map (fun l => l.handlers) = some [] ∧
    collectHandlers (getLogger (some "db") defaultSetupState).2
      { level := 30, propagate := true, handlers := [Handler.stream] }
      (splitDots (LOGGER_NAME ++ "." ++ "db")) = defaultRootLogger.handlers ∧
    alGet (addFields childRecord []) "logger" =
      some (JVal.str (LOGGER_NAME ++ "." ++ "db")) := by
  have h := c8_get_logger_delegation defaultSetupState "db"
    { level := 30, propagate := true, handlers := [Handler.stream] }
    defaultRootLogger childRecord [] (by decide) (by decide) (by decide) (by decide)
  exact h

/-- C9: with the file sink enabled (and a severity string `setLevel`
accepts), a failure of parent-directory creation or of opening the log
file makes `setup_logger` raise the corresponding error to its caller —
the failure is never absorbed: the mkdir error surfaces as such, an open
error can only occur after the directories were created, and a completed
call implies both filesystem steps succeeded. -/
theorem c9_sink_setup_errors (cfg : Config) (fs : FsOutcome) (st : Registry) (v : Int)
    (hfile : cfg.enable_file = true)
    (hv : resolveLevel cfg.log_level 20 = LevelResolution.val v) :
    (fs.mkdirOk = false → (setupLogger cfg fs st).2 = some PyError.mkdirError) ∧
    (fs.mkdirOk = true → fs.openOk = false →
      (setupLogger cfg fs st).2 = some PyError.openError) ∧
    ((setupLogger cfg fs st).2 = some PyError.openError → fs.mkdirOk = true) ∧
    ((setupLogger cfg fs st).2 = none → fs.mkdirOk = true ∧ fs.openOk = true) := by
  have hchar := setup_snd_char cfg fs st v hv hfile
  refine ⟨?_, ?_, ?_, ?_⟩
  · intro hmk
    rw [hchar, hmk]
    simp
  · intro hmk hop
    rw [hchar, hmk, hop]
    simp
  · intro hopE
    cases hmk : fs.mkdirOk
    · rw [hchar, hmk] at hopE
      simp at hopE
    · rfl
  · intro hnone
    exact setup_success_fs cfg fs st hfile hnone

theorem c9_sink_setup_errors_witness :
    ((⟨false, true⟩ : FsOutcome).mkdirOk = false →
      (setupLogger {} ⟨false, true⟩ []).2 = some PyError.mkdirError) ∧
    ((⟨false, true⟩ : FsOutcome).mkdirOk = true →
      (⟨false, true⟩ : FsOutcome).openOk = false →
      (setupLogger {} ⟨false, true⟩ []).2 = some PyError.openError) ∧
    ((setupLogger {} ⟨false, true⟩ []).2 = some PyError.openError →
      (⟨false, true⟩ : FsOutcome).mkdirOk = true) ∧
    ((setupLogger {} ⟨false, true⟩ []).2 = none →
      (⟨false, true⟩ : FsOutcome).mkdirOk = true ∧
      (⟨false, true⟩ : FsOutcome).openOk = true) := by
  have h := c9_sink_setup_errors {} ⟨false, true⟩ [] 20 rfl (by decide)
  exact h

/-- C10: `get_logger` is idempotent: a second call with the same argument
returns the same handle and leaves the registry untouched (the logger is
created at most once, on the first call). -/
theorem c10_get_logger_idempotent (name : Option String) (st : Registry) :
    getLogger name (getLogger name st).2 = getLogger name st := by
  cases name with
  | none =>
    show ((rootName, ensureLogger (ensureLogger st rootName) rootName) :
      LName × Registry) = (rootName, ensureLogger st rootName)
    rw [ensure_idem]
  | some n =>
    by_cases hn : n = ""
    · subst hn
      show ((rootName, ensureLogger (ensureLogger st rootName) rootName) :
        LName × Registry) = (rootName, ensureLogger st rootName)
      rw [ensure_idem]
    · simp only [getLogger, if_neg hn]
      rw [ensure_idem]
